import Mathlib

/-!
Verification of the item lifecycle core of the repository: the ephemeral
in-memory store (`app/repository.py`), the service layer enforcing the
duplicate-title invariant (`app/services.py`), and the durable variant
(`app/repository_db.py`, `app/services_db.py`).

Timestamps (`datetime.utcnow()` in the source) are modelled as natural
numbers supplied explicitly to each operation that reads the clock.
Python exceptions (`ValueError` for a duplicate title) are modelled with
`Except`; the uniqueness check in the source runs before any store
mutation, so the error branch carries no modified store.
-/

namespace Blog

/-- The `Item` dataclass of `app/models.py` (memory-store variant). -/
structure Item where
  id : Nat
  title : String
  description : Option String
  is_done : Bool
  created_at : Nat
  updated_at : Nat
  deriving Repr, DecidableEq

/-- State of `ItemRepository` in `app/repository.py`: the dict
`_items` (keyed by `item.id`, held here in insertion order) and the
counter `_next_id`. -/
structure ItemRepository where
  items : List Item
  next_id : Nat
  deriving Repr, DecidableEq

namespace ItemRepository

/-- `ItemRepository.__init__`: empty dict, counter starts at 1. -/
def init : ItemRepository := { items := [], next_id := 1 }

/-- `ItemRepository.list_items`: all items in insertion order
(`list(self._items.values())`). -/
def list_items (repo : ItemRepository) : List Item := repo.items

/-- `ItemRepository.get_item`: `self._items.get(item_id)`. -/
def get_item (repo : ItemRepository) (item_id : Nat) : Option Item :=
  repo.items.find? (fun it => it.id == item_id)

/-- `ItemRepository.create_item`: build the item with `id = _next_id`,
`is_done = False`, `created_at = updated_at = now`, store it, bump the
counter, return the new item. -/
def create_item (repo : ItemRepository) (title : String)
    (description : Option String) (now : Nat) : Item × ItemRepository :=
  let item : Item :=
    { id := repo.next_id, title := title, description := description,
      is_done := false, created_at := now, updated_at := now }
  (item, { items := repo.items ++ [item], next_id := repo.next_id + 1 })

/-- The field mutations performed by `ItemRepository.update_item` on the
item object: each supplied (`is not None`) field overwrites the current
value, then `updated_at` is refreshed. -/
def applyUpdate (item : Item) (title description : Option String)
    (is_done : Option Bool) (now : Nat) : Item :=
  let item := match title with
    | some t => { item with title := t }
    | none => item
  let item := match description with
    | some d => { item with description := some d }
    | none => item
  let item := match is_done with
    | some b => { item with is_done := b }
    | none => item
  { item with updated_at := now }

/-- `ItemRepository.update_item`: mutates the item object in place; the
dict entry at key `item.id` (when present) holds that same object, so
the store sees the updated record. Returns the updated item. -/
def update_item (repo : ItemRepository) (item : Item)
    (title description : Option String) (is_done : Option Bool)
    (now : Nat) : Item × ItemRepository :=
  let item' := applyUpdate item title description is_done now
  (item',
   { repo with
     items := repo.items.map (fun it => if it.id == item.id then item' else it) })

/-- `ItemRepository.delete_item`: `self._items.pop(item_id, None)`;
returns whether a removal occurred. -/
def delete_item (repo : ItemRepository) (item_id : Nat) :
    Bool × ItemRepository :=
  (repo.items.any (fun it => it.id == item_id),
   { repo with items := repo.items.filter (fun it => !(it.id == item_id)) })

/-- `ItemRepository.reset`: `self._items.clear()` and `_next_id = 1`. -/
def reset (_repo : ItemRepository) : ItemRepository :=
  { items := [], next_id := 1 }

end ItemRepository

/-- `ItemCreate` of `app/schemas.py` (length validation happens at the
transport boundary, outside this core). -/
structure ItemCreate where
  title : String
  description : Option String
  deriving Repr, DecidableEq

/-- `ItemUpdate` of `app/schemas.py`: each field optional, `None`
meaning "leave unchanged". -/
structure ItemUpdate where
  title : Option String
  description : Option String
  is_done : Option Bool
  deriving Repr, DecidableEq

/-- The business failure of the service layer: the `ValueError` raised
by `_ensure_title_unique`. -/
inductive ServiceError where
  | DuplicateTitle
  deriving Repr, DecidableEq

namespace ItemService

/-- The scan of `ItemService._ensure_title_unique`: does any item
returned by `list_items` carry exactly this title? -/
def titleTaken (repo : ItemRepository) (title : String) : Bool :=
  repo.list_items.any (fun existing => existing.title == title)

/-- `ItemService.create_item`: `_ensure_title_unique(payload.title)`
(raising `DuplicateTitle` on a hit) and then delegation to the store. -/
def create_item (repo : ItemRepository) (payload : ItemCreate)
    (now : Nat) : Except ServiceError (Item × ItemRepository) :=
  if titleTaken repo payload.title then
    .error .DuplicateTitle
  else
    .ok (repo.create_item payload.title payload.description now)

/-- `ItemService.update_item`: resolve via `get_item` (`none` if
absent); re-run the uniqueness check only when a title is supplied and
differs from the current one; then delegate to the store. -/
def update_item (repo : ItemRepository) (item_id : Nat)
    (payload : ItemUpdate) (now : Nat) :
    Except ServiceError (Option Item × ItemRepository) :=
  match repo.get_item item_id with
  | none => .ok (none, repo)
  | some item =>
    if (match payload.title with
        | some t => t != item.title
        | none => false) &&
       titleTaken repo (payload.title.getD item.title) then
      .error .DuplicateTitle
    else
      let (item', repo') :=
        repo.update_item item payload.title payload.description
          payload.is_done now
      .ok (some item', repo')

/-- `ItemService.delete_item`: straight delegation to the store. -/
def delete_item (repo : ItemRepository) (item_id : Nat) :
    Bool × ItemRepository :=
  repo.delete_item item_id

/-- `ItemService.get_item`: straight delegation to the store. -/
def get_item (repo : ItemRepository) (item_id : Nat) : Option Item :=
  repo.get_item item_id

/-- `ItemService.reset`: straight delegation to the store. -/
def reset (repo : ItemRepository) : ItemRepository :=
  repo.reset

end ItemService

/-! ### Helper lemmas and concrete sample states -/

/-- A concrete item used to instantiate theorems on concrete stores. -/
def sampleItem : Item :=
  { id := 1, title := "a", description := none, is_done := false,
    created_at := 0, updated_at := 0 }

/-- A concrete one-item store used to instantiate theorems. -/
def sampleRepo : ItemRepository := { items := [sampleItem], next_id := 2 }

/-- A concrete two-item store (titles "a" and "b") used to instantiate
theorems. -/
def sampleRepo2 : ItemRepository :=
  { items := [sampleItem,
      { id := 2, title := "b", description := none, is_done := false,
        created_at := 0, updated_at := 0 }],
    next_id := 3 }

lemma get_item_mem_and_id {repo : ItemRepository} {item_id : Nat} {item : Item}
    (h : repo.get_item item_id = some item) :
    item ∈ repo.items ∧ item.id = item_id := by
  unfold ItemRepository.get_item at h
  refine ⟨List.mem_of_find?_eq_some h, ?_⟩
  have hp := List.find?_some h
  simpa using hp

/-! ### Claims -/

/-- C5: after `reset()` the repository lists no items, and the next
`create` is assigned the initial identifier 1 again. -/
theorem reset_clears_and_restarts_ids (repo : ItemRepository)
    (title : String) (description : Option String) (now : Nat) :
    (repo.reset).list_items = [] ∧
    ((repo.reset).create_item title description now).1.id = 1 := by
  constructor
  · rfl
  · rfl

/-- C7: a service update on an id that is not in the store returns the
absent value (`.ok (none, _)`, not an error) and leaves the store
unchanged. -/
theorem update_absent_id_is_none (repo : ItemRepository) (item_id : Nat)
    (payload : ItemUpdate) (now : Nat)
    (h : repo.get_item item_id = none) :
    ItemService.update_item repo item_id payload now = .ok (none, repo) := by
  unfold ItemService.update_item
  rw [h]

/-- Witness for C7 on a concrete store. -/
theorem update_absent_id_is_none_witness :
    ItemService.update_item sampleRepo
      7 { title := none, description := some "x", is_done := none } 3 =
      .ok (none, sampleRepo) :=
  update_absent_id_is_none sampleRepo 7
    { title := none, description := some "x", is_done := none } 3 (by decide)

/-- C8: when an item with the given id exists, the first service delete
returns `true`, a subsequent `get` on the id returns absent, and a
second delete on the same id returns `false`. -/
theorem delete_twice_true_then_false (repo : ItemRepository)
    (item_id : Nat) (item : Item)
    (hget : repo.get_item item_id = some item) :
    (ItemService.delete_item repo item_id).1 = true ∧
    ((ItemService.delete_item repo item_id).2).get_item item_id = none ∧
    (ItemService.delete_item
        ((ItemService.delete_item repo item_id).2) item_id).1 = false := by
  obtain ⟨hmem, hid⟩ := get_item_mem_and_id hget
  unfold ItemService.delete_item ItemRepository.delete_item
    ItemRepository.get_item
  refine ⟨?_, ?_, ?_⟩
  · simp only [List.any_eq_true]
    exact ⟨item, hmem, by simp [hid]⟩
  · simp only [List.find?_eq_none, List.mem_filter]
    intro x hx
    simpa using hx.2
  · simp only [List.any_eq_false, List.mem_filter]
    intro x hx
    simpa using hx.2

/-- Witness for C8 on a concrete store. -/
theorem delete_twice_true_then_false_witness :
    (ItemService.delete_item sampleRepo 1).1 = true ∧
    ((ItemService.delete_item sampleRepo 1).2).get_item 1 = none ∧
    (ItemService.delete_item
        ((ItemService.delete_item sampleRepo 1).2) 1).1 = false :=
  delete_twice_true_then_false sampleRepo 1 sampleItem (by decide)

/-- C10: a service update whose payload supplies none of the three
fields still succeeds (returns a present item, not absent), leaves
`title`, `description`, `is_done`, `id` and `created_at` unchanged, and
refreshes `updated_at` to the current clock reading. -/
theorem update_all_absent_refreshes_timestamp (repo : ItemRepository)
    (item_id : Nat) (now : Nat) (item : Item)
    (hget : repo.get_item item_id = some item) :
    ∃ item' repo',
      ItemService.update_item repo item_id
          { title := none, description := none, is_done := none } now =
        .ok (some item', repo') ∧
      item'.title = item.title ∧
      item'.description = item.description ∧
      item'.is_done = item.is_done ∧
      item'.id = item.id ∧
      item'.created_at = item.created_at ∧
      item'.updated_at = now := by
  unfold ItemService.update_item
  rw [hget]
  exact ⟨_, _, rfl, rfl, rfl, rfl, rfl, rfl, rfl⟩

/-- Witness for C10 on a concrete store. -/
theorem update_all_absent_refreshes_timestamp_witness :
    ∃ item' repo',
      ItemService.update_item sampleRepo 1
        { title := none, description := none, is_done := none } 5 =
        .ok (some item', repo') ∧
      item'.title = sampleItem.title ∧
      item'.description = sampleItem.description ∧
      item'.is_done = sampleItem.is_done ∧
      item'.id = sampleItem.id ∧
      item'.created_at = sampleItem.created_at ∧
      item'.updated_at = 5 :=
  update_all_absent_refreshes_timestamp sampleRepo 1 5 sampleItem (by decide)

/-- C2: a service update supplying only `description` changes only that
field: `title` and `is_done` retain their prior values, `id` and
`created_at` are unchanged, `updated_at` strictly increases (the clock
reading at the update is strictly later than the item's previous
`updated_at`), and items with other ids stay in the store untouched. -/
theorem update_description_only_frame (repo : ItemRepository)
    (item_id : Nat) (d : String) (now : Nat) (item : Item)
    (hget : repo.get_item item_id = some item)
    (hclock : item.updated_at < now) :
    ∃ item' repo',
      ItemService.update_item repo item_id
          { title := none, description := some d, is_done := none } now =
        .ok (some item', repo') ∧
      item'.title = item.title ∧
      item'.is_done = item.is_done ∧
      item'.id = item.id ∧
      item'.created_at = item.created_at ∧
      item'.description = some d ∧
      item.updated_at < item'.updated_at ∧
      ∀ other ∈ repo.items, other.id ≠ item_id → other ∈ repo'.items := by
  obtain ⟨hmem, hid⟩ := get_item_mem_and_id hget
  unfold ItemService.update_item
  rw [hget]
  refine ⟨_, _, rfl, rfl, rfl, rfl, rfl, rfl, hclock, ?_⟩
  intro other hmemo hne
  show other ∈ repo.items.map _
  rw [List.mem_map]
  refine ⟨other, hmemo, ?_⟩
  have hfo : (other.id == item.id) = false := by
    rw [beq_eq_false_iff_ne]
    rw [hid]
    exact hne
  simp [hfo]

/-- Witness for C2 on a concrete store. -/
theorem update_description_only_frame_witness :
    ∃ item' repo',
      ItemService.update_item sampleRepo 1
          { title := none, description := some "x", is_done := none } 5 =
        .ok (some item', repo') ∧
      item'.title = sampleItem.title ∧
      item'.is_done = sampleItem.is_done ∧
      item'.id = sampleItem.id ∧
      item'.created_at = sampleItem.created_at ∧
      item'.description = some "x" ∧
      sampleItem.updated_at < item'.updated_at ∧
      ∀ other ∈ sampleRepo.items, other.id ≠ 1 → other ∈ repo'.items :=
  update_description_only_frame sampleRepo 1 "x" 5 sampleItem
    (by decide) (by decide)

/-- C6: when the supplied title is identical to the item's current
title, no uniqueness failure can occur and the update succeeds; the
uniqueness check applies only when the supplied title differs from the
current one, and then any store item carrying that title makes the call
fail with `DuplicateTitle` (the error is raised before the store
delegation, so no mutated store is produced). -/
theorem update_title_check_only_on_change (repo : ItemRepository)
    (item_id : Nat) (payload : ItemUpdate) (now : Nat) (item : Item)
    (t : String) (hget : repo.get_item item_id = some item) :
    (payload.title = some item.title →
      ∃ item' repo',
        ItemService.update_item repo item_id payload now =
          .ok (some item', repo')) ∧
    (payload.title = some t → t ≠ item.title →
      (∃ other ∈ repo.items, other.title = t) →
      ItemService.update_item repo item_id payload now =
        .error .DuplicateTitle) := by
  constructor
  · intro hsame
    unfold ItemService.update_item
    rw [hget, hsame]
    simp only [bne_self_eq_false, Bool.false_and, Bool.false_eq_true,
      if_false]
    exact ⟨_, _, rfl⟩
  · intro hsome hne hdup
    unfold ItemService.update_item
    rw [hget, hsome]
    have htaken : ItemService.titleTaken repo t = true := by
      unfold ItemService.titleTaken ItemRepository.list_items
      rw [List.any_eq_true]
      obtain ⟨o, ho, hot⟩ := hdup
      exact ⟨o, ho, by simp [hot]⟩
    simp [htaken, bne_iff_ne, hne]

/-- Witness for C6: in a store holding titles "a" (id 1) and "b"
(id 2), updating item 1 to the already-taken title "b" fails with
`DuplicateTitle`. -/
theorem update_title_check_only_on_change_witness :
    ((some "b" : Option String) = some sampleItem.title →
      ∃ item' repo',
        ItemService.update_item sampleRepo2 1
            { title := some "b", description := none, is_done := none }
            5 = .ok (some item', repo')) ∧
    ((some "b" : Option String) = some "b" → "b" ≠ sampleItem.title →
      (∃ other ∈ sampleRepo2.items, other.title = "b") →
      ItemService.update_item sampleRepo2 1
          { title := some "b", description := none, is_done := none }
          5 = .error .DuplicateTitle) :=
  update_title_check_only_on_change sampleRepo2 1
    { title := some "b", description := none, is_done := none } 5
    sampleItem "b" (by decide)

/-! ### Traces of operations -/

/-- No two items simultaneously present in the store share a title. -/
def titlesDistinct (repo : ItemRepository) : Prop :=
  repo.items.Pairwise (fun a b => a.title ≠ b.title)

/-- One step of a sequence of service-level create calls: on
`DuplicateTitle` the exception propagates past the store, which stays
exactly as it was (the check in `create_item` runs before any store
mutation). -/
def createsStep (repo : ItemRepository) (call : ItemCreate × Nat) :
    ItemRepository :=
  match ItemService.create_item repo call.1 call.2 with
  | .ok r => r.2
  | .error _ => repo

/-- Run a sequence of service-level create calls from the empty store. -/
def runCreates (calls : List (ItemCreate × Nat)) : ItemRepository :=
  calls.foldl createsStep ItemRepository.init

lemma createsStep_preserves (repo : ItemRepository)
    (call : ItemCreate × Nat) (h : titlesDistinct repo) :
    titlesDistinct (createsStep repo call) := by
  unfold createsStep ItemService.create_item
  by_cases htaken : ItemService.titleTaken repo call.1.title = true
  · rw [if_pos htaken]
    exact h
  · rw [if_neg htaken]
    show titlesDistinct
      (repo.create_item call.1.title call.1.description call.2).2
    unfold titlesDistinct ItemRepository.create_item
    rw [List.pairwise_append]
    refine ⟨h, List.pairwise_singleton _ _, ?_⟩
    intro a ha b hb
    rw [List.mem_singleton] at hb
    subst hb
    show a.title ≠ call.1.title
    intro hcontra
    apply htaken
    unfold ItemService.titleTaken ItemRepository.list_items
    rw [List.any_eq_true]
    exact ⟨a, ha, by simp [hcontra]⟩

/-- The create/delete store operations of a C3 trace. -/
inductive CDOp where
  | create (title : String) (description : Option String) (now : Nat)
  | delete (item_id : Nat)

/-- Run one create/delete call against the ephemeral store, collecting
the id the store assigns to each created item. -/
def cdStep (s : ItemRepository × List Nat) (op : CDOp) :
    ItemRepository × List Nat :=
  match op with
  | .create t d now =>
    ((s.1.create_item t d now).2, s.2 ++ [(s.1.create_item t d now).1.id])
  | .delete i => ((s.1.delete_item i).2, s.2)

/-- Run a sequence of store-level create/delete calls from the fresh
store, returning the final store and the ids assigned, in order. -/
def runCD (ops : List CDOp) : ItemRepository × List Nat :=
  ops.foldl cdStep (ItemRepository.init, [])

lemma runCD_aux (ops : List CDOp) (repo : ItemRepository)
    (ids : List Nat) (hsorted : ids.Pairwise (· < ·))
    (hbound : ∀ i ∈ ids, i < repo.next_id) :
    (ops.foldl cdStep (repo, ids)).2.Pairwise (· < ·) := by
  induction ops generalizing repo ids with
  | nil => exact hsorted
  | cons op ops ih =>
    rw [List.foldl_cons]
    cases op with
    | create t d now =>
      simp only [cdStep, ItemRepository.create_item]
      apply ih
      · rw [List.pairwise_append]
        refine ⟨hsorted, List.pairwise_singleton _ _, ?_⟩
        intro a ha b hb
        rw [List.mem_singleton] at hb
        subst hb
        exact hbound a ha
      · intro i hi
        rw [List.mem_append] at hi
        rcases hi with hi | hi
        · exact Nat.lt_succ_of_lt (hbound i hi)
        · rw [List.mem_singleton] at hi
          subst hi
          exact Nat.lt_succ_self _
    | delete j =>
      simp only [cdStep, ItemRepository.delete_item]
      exact ih _ _ hsorted hbound

/-- The timestamped store operations of a C4 trace. -/
inductive StoreOp where
  | create (title : String) (description : Option String)
  | update (item_id : Nat) (title description : Option String)
      (is_done : Option Bool)
  | delete (item_id : Nat)
  | reset

/-- Run one timestamped store call; `update` resolves its target with
`get_item` first, as every caller in the source does, and is a no-op on
an absent id. -/
def storeStep (repo : ItemRepository) (call : StoreOp × Nat) :
    ItemRepository :=
  match call.1 with
  | .create t d => (repo.create_item t d call.2).2
  | .update i t d b =>
    match repo.get_item i with
    | some item => (repo.update_item item t d b call.2).2
    | none => repo
  | .delete i => (repo.delete_item i).2
  | .reset => repo.reset

/-- Run a sequence of timestamped store calls from the fresh store. -/
def runStore (calls : List (StoreOp × Nat)) : ItemRepository :=
  calls.foldl storeStep ItemRepository.init

/-- Every stored item has `created_at ≤ updated_at`, and no stored
timestamp is later than `t`. -/
def timeOK (repo : ItemRepository) (t : Nat) : Prop :=
  ∀ it ∈ repo.items, it.created_at ≤ it.updated_at ∧ it.updated_at ≤ t

lemma applyUpdate_created_at (item : Item) (ti d : Option String)
    (b : Option Bool) (now : Nat) :
    (ItemRepository.applyUpdate item ti d b now).created_at =
      item.created_at := by
  unfold ItemRepository.applyUpdate
  cases ti <;> cases d <;> cases b <;> rfl

lemma applyUpdate_updated_at (item : Item) (ti d : Option String)
    (b : Option Bool) (now : Nat) :
    (ItemRepository.applyUpdate item ti d b now).updated_at = now := by
  unfold ItemRepository.applyUpdate
  cases ti <;> cases d <;> cases b <;> rfl

lemma storeStep_timeOK (repo : ItemRepository) (op : StoreOp)
    (now t : Nat) (ht : t ≤ now) (h : timeOK repo t) :
    timeOK (storeStep repo (op, now)) now := by
  cases op with
  | create ti d =>
    intro it hit
    simp only [storeStep, ItemRepository.create_item] at hit
    rw [List.mem_append] at hit
    rcases hit with hit | hit
    · obtain ⟨h1, h2⟩ := h it hit
      exact ⟨h1, le_trans h2 ht⟩
    · rw [List.mem_singleton] at hit
      subst hit
      exact ⟨le_refl _, le_refl _⟩
  | update i ti d b =>
    intro it hit
    simp only [storeStep] at hit
    cases hg : repo.get_item i with
    | none =>
      rw [hg] at hit
      obtain ⟨h1, h2⟩ := h it hit
      exact ⟨h1, le_trans h2 ht⟩
    | some item =>
      obtain ⟨hitemmem, -⟩ := get_item_mem_and_id hg
      obtain ⟨hic, hiu⟩ := h item hitemmem
      rw [hg] at hit
      simp only [ItemRepository.update_item] at hit
      rw [List.mem_map] at hit
      obtain ⟨x, hx, hfx⟩ := hit
      by_cases hxi : (x.id == item.id) = true
      · rw [if_pos hxi] at hfx
        rw [← hfx]
        rw [applyUpdate_created_at, applyUpdate_updated_at]
        exact ⟨le_trans hic (le_trans hiu ht), le_refl _⟩
      · rw [if_neg hxi] at hfx
        rw [← hfx]
        obtain ⟨h1, h2⟩ := h x hx
        exact ⟨h1, le_trans h2 ht⟩
  | delete i =>
    intro it hit
    simp only [storeStep, ItemRepository.delete_item] at hit
    rw [List.mem_filter] at hit
    obtain ⟨h1, h2⟩ := h it hit.1
    exact ⟨h1, le_trans h2 ht⟩
  | reset =>
    intro it hit
    simp only [storeStep, ItemRepository.reset] at hit
    exact absurd hit (List.not_mem_nil it)

lemma runStore_aux (calls : List (StoreOp × Nat)) (repo : ItemRepository)
    (t : Nat) (h : timeOK repo t)
    (hmono : List.Chain' (· ≤ ·) (t :: calls.map Prod.snd)) :
    ∀ it ∈ (calls.foldl storeStep repo).items,
      it.created_at ≤ it.updated_at := by
  induction calls generalizing repo t with
  | nil =>
    intro it hit
    exact (h it hit).1
  | cons c cs ih =>
    rw [List.map_cons] at hmono
    have ht : t ≤ c.2 := (List.chain'_cons.mp hmono).1
    have hrest := (List.chain'_cons.mp hmono).2
    rw [List.foldl_cons]
    exact ih (storeStep repo c) c.2
      (storeStep_timeOK repo c.1 c.2 t ht h) hrest

/-! ### The durable variant -/

/-- State of `ItemDBRepository` (`app/repository_db.py`): the rows of
the `items` table. -/
structure ItemDBRepository where
  rows : List Item
  deriving Repr, DecidableEq

namespace ItemDBRepository

/-- Modelled from the spec: identifier assignment in the durable store
is performed by the storage engine, not by code under `src/` ("durable:
storage-assigned" in the spec). The configured backend (SQLite, integer
primary key) gives a new row the id one greater than the largest
existing id, and id 1 when the table is empty. -/
def next_db_id (rows : List Item) : Nat :=
  (rows.foldl (fun m it => max m it.id) 0) + 1

/-- `ItemDBRepository.list_items`: all rows. -/
def list_items (db : ItemDBRepository) : List Item := db.rows

/-- `ItemDBRepository.create_item`: inserts a row with
`is_done=False` and column defaults `created_at=updated_at=now`; the id
is assigned by the storage engine (`next_db_id`). -/
def create_item (db : ItemDBRepository) (title : String)
    (description : Option String) (now : Nat) :
    Item × ItemDBRepository :=
  let item : Item :=
    { id := next_db_id db.rows, title := title, description := description,
      is_done := false, created_at := now, updated_at := now }
  (item, { rows := db.rows ++ [item] })

/-- `ItemDBRepository.delete_all` (the durable variant's reset):
deletes every row of the table. -/
def delete_all (_db : ItemDBRepository) : ItemDBRepository :=
  { rows := [] }

end ItemDBRepository

/-- C1: along every sequence of service-level create calls from the
empty store, no two stored items share a title; and a create whose
title matches an existing item's title fails with `DuplicateTitle` and
leaves the store (items and identifier counter) exactly as it was. -/
theorem create_titles_unique (calls : List (ItemCreate × Nat))
    (repo : ItemRepository) (payload : ItemCreate) (now : Nat)
    (hdup : ∃ it ∈ repo.items, it.title = payload.title) :
    titlesDistinct (runCreates calls) ∧
    ItemService.create_item repo payload now = .error .DuplicateTitle ∧
    createsStep repo (payload, now) = repo := by
  have htaken : ItemService.titleTaken repo payload.title = true := by
    unfold ItemService.titleTaken ItemRepository.list_items
    rw [List.any_eq_true]
    obtain ⟨it, hmem, hteq⟩ := hdup
    exact ⟨it, hmem, by simp [hteq]⟩
  have herr :
      ItemService.create_item repo payload now = .error .DuplicateTitle := by
    unfold ItemService.create_item
    rw [if_pos htaken]
  refine ⟨?_, herr, ?_⟩
  · have hrun : ∀ (cs : List (ItemCreate × Nat)) (r : ItemRepository),
        titlesDistinct r → titlesDistinct (cs.foldl createsStep r) := by
      intro cs
      induction cs with
      | nil => exact fun r h => h
      | cons c cs ih =>
        intro r h
        rw [List.foldl_cons]
        exact ih _ (createsStep_preserves r c h)
    exact hrun calls ItemRepository.init List.Pairwise.nil
  · show (match ItemService.create_item repo payload now with
      | .ok r => r.2
      | .error _ => repo) = repo
    rw [herr]

/-- Witness for C1: three creates (the second a duplicate) from the
empty store, and a duplicate create against the concrete store. -/
theorem create_titles_unique_witness :
    titlesDistinct (runCreates
      [({ title := "a", description := none }, 0),
       ({ title := "a", description := none }, 1),
       ({ title := "b", description := none }, 2)]) ∧
    ItemService.create_item sampleRepo
        { title := "a", description := none } 5 =
      .error .DuplicateTitle ∧
    createsStep sampleRepo ({ title := "a", description := none }, 5) =
      sampleRepo :=
  create_titles_unique
    [({ title := "a", description := none }, 0),
     ({ title := "a", description := none }, 1),
     ({ title := "b", description := none }, 2)]
    sampleRepo { title := "a", description := none } 5 (by decide)

/-- C3: along every sequence of store-level create and delete calls in
one lifetime of the ephemeral store, the ids assigned by successive
creates are strictly increasing, hence never assigned twice, even after
deletions. -/
theorem create_ids_strictly_increasing (ops : List CDOp) :
    (runCD ops).2.Pairwise (· < ·) ∧ (runCD ops).2.Nodup := by
  have hsorted : (runCD ops).2.Pairwise (· < ·) :=
    runCD_aux ops ItemRepository.init [] List.Pairwise.nil
      (fun i hi => absurd hi (List.not_mem_nil i))
  exact ⟨hsorted, hsorted.imp Nat.ne_of_lt⟩

/-- C4: along every sequence of timestamped store calls whose clock
readings are monotone non-decreasing, every stored item satisfies
`created_at ≤ updated_at`: create sets both to the same instant, and
update only moves `updated_at` forward, leaving `created_at` alone. -/
theorem updated_at_ge_created_at (calls : List (StoreOp × Nat))
    (hmono : List.Chain' (· ≤ ·) (calls.map Prod.snd)) :
    ∀ it ∈ (runStore calls).items, it.created_at ≤ it.updated_at := by
  unfold runStore
  apply runStore_aux calls ItemRepository.init 0
  · intro it hit
    exact absurd hit (List.not_mem_nil it)
  · rw [List.chain'_cons']
    exact ⟨fun b _ => Nat.zero_le b, hmono⟩

/-- Witness for C4: on a concrete timestamped trace, the item that
survives it satisfies `created_at ≤ updated_at`. -/
theorem updated_at_ge_created_at_witness :
    ({ id := 1, title := "a", description := some "d", is_done := true,
       created_at := 0, updated_at := 1 } : Item) ∈ (runStore
      [(.create "a" none, 0),
       (.update 1 none (some "d") (some true), 1),
       (.create "b" none, 1),
       (.delete 2, 3)]).items ∧
    ({ id := 1, title := "a", description := some "d", is_done := true,
       created_at := 0, updated_at := 1 } : Item).created_at ≤
      ({ id := 1, title := "a", description := some "d", is_done := true,
         created_at := 0, updated_at := 1 } : Item).updated_at :=
  ⟨by decide,
   updated_at_ge_created_at
    [(.create "a" none, 0),
     (.update 1 none (some "d") (some true), 1),
     (.create "b" none, 1),
     (.delete 2, 3)] (by simp [List.chain'_cons])
    { id := 1, title := "a", description := some "d", is_done := true,
      created_at := 0, updated_at := 1 } (by decide)⟩

/-- C9: both store variants satisfy the reset clause of the shared
contract: after reset (`reset` for the ephemeral store, `delete_all`
for the durable one) the listing is empty and the next create is
assigned the initial identifier 1. -/
theorem reset_contract_both_variants (repo : ItemRepository)
    (db : ItemDBRepository) (t t' : String) (d d' : Option String)
    (now now' : Nat) :
    (repo.reset).list_items = [] ∧
    ((repo.reset).create_item t d now).1.id = 1 ∧
    (db.delete_all).list_items = [] ∧
    ((db.delete_all).create_item t' d' now').1.id = 1 :=
  ⟨rfl, rfl, rfl, rfl⟩

end Blog
